import Mathlib

/-!
Shallow embedding of `transport-time-series-sports` (src/src/utils.py and
src/src/analysis.py) together with proofs about its claims.

Modelling conventions:
* Dates are day numbers (`Nat`), with day 0 falling on a Monday (for concrete
  inputs we use the epoch 2024-01-01, a Monday), so `d % 7 = 0` means Monday
  and `d % 7 = 6` means Sunday.  Pandas timestamps carry no extra content for
  this code path beyond the day.
* Latitudes/longitudes and kilometre values are real numbers (`ℝ`), matching
  the mathematical reading of Python floats used by the spec.
* A pandas lookup `cities_df[cities_df["city"] == name].iloc[0]` raises an
  uncaught `IndexError` when no row matches; fallible lookups are therefore
  modelled with `Option`, `none` standing for the propagated exception.
-/

namespace Transport

/-- Row of `data/cities.csv`: columns `city`, `lat`, `lon`, `airport`. -/
structure City where
  city : String
  lat : ℝ
  lon : ℝ
  airport : String

/-- Row of `data/schedule.csv` (the fields used by the code): `date`,
`venue_city`. -/
structure Game where
  date : Nat
  venue_city : String
deriving DecidableEq

/-- One travel leg as built by `compute_trip_legs` (dict keys `date`,
`from_city`, `to_city`, `km`, in this order). -/
structure Leg where
  date : Nat
  from_city : String
  to_city : String
  km : ℝ

/-- Python `math.radians`: degrees to radians. -/
noncomputable def radians (x : ℝ) : ℝ := x * Real.pi / 180

/-- Embedding of `utils.haversine`: great-circle distance (km) between two
points, Earth radius 6371.0 km. -/
noncomputable def haversine (lat1 lon1 lat2 lon2 : ℝ) : ℝ :=
  let R : ℝ := 6371.0
  let phi1 := radians lat1
  let phi2 := radians lat2
  let dphi := radians (lat2 - lat1)
  let dlambda := radians (lon2 - lon1)
  let a := Real.sin (dphi / 2) ^ 2 +
    Real.cos phi1 * Real.cos phi2 * Real.sin (dlambda / 2) ^ 2
  2 * R * Real.arcsin (Real.sqrt a)

/-- Embedding of `cities_df[cities_df["city"] == name].iloc[0]`: the first row
whose `city` column equals `name`; `none` models the uncaught `IndexError`
raised when no row matches. -/
def cityLookup (cities : List City) (name : String) : Option City :=
  cities.find? (fun c => c.city == name)

/-- The `for _, row in df.iterrows()` loop of `compute_trip_legs`: walk the
(already sorted) games keeping the `prev_city` cursor, emitting a leg whenever
the venue city differs from the cursor, and moving the cursor to the venue
regardless.  `none` models an uncaught lookup error. -/
noncomputable def legsLoop (cities : List City) (prev_city : String) :
    List Game → Option (List Leg)
  | [] => some []
  | g :: gs =>
    if g.venue_city ≠ prev_city then
      match cityLookup cities prev_city, cityLookup cities g.venue_city with
      | some from_row, some to_row =>
        (legsLoop cities g.venue_city gs).map (fun rest =>
          { date := g.date
            from_city := prev_city
            to_city := g.venue_city
            km := haversine from_row.lat from_row.lon to_row.lat to_row.lon } :: rest)
      | _, _ => none
    else
      legsLoop cities g.venue_city gs

/-- Insert a game into a date-sorted list, before the first strictly later
game (so the sort below is stable). -/
def insertGame (g : Game) : List Game → List Game
  | [] => [g]
  | h :: t => if g.date ≤ h.date then g :: h :: t else h :: insertGame g t

/-- The `df_games.sort_values("date")` step at the top of
`compute_trip_legs`: stable sort of the games by ascending date. -/
def sortGames (games : List Game) : List Game :=
  games.foldr insertGame []

/-- Value of the `prev_city` cursor after the loop: the last (sorted) game's
venue city, or the base city when there are no games. -/
def finalCity (base_city : String) (games : List Game) : String :=
  ((sortGames games).map Game.venue_city).getLast?.getD base_city

/-- Value of `prev_date` after the loop: the last (sorted) game's date. -/
def finalDate (games : List Game) : Option Nat :=
  ((sortGames games).map Game.date).getLast?

/-- Embedding of `utils.compute_trip_legs`: sort the games by date, run the
cursor loop, then append the closing leg home when the final cursor differs
from the base city.  `none` models an uncaught lookup (`IndexError`)
propagating out of the function. -/
noncomputable def computeTripLegs (games : List Game) (cities : List City)
    (base_city : String := "Dallas") : Option (List Leg) :=
  (legsLoop cities base_city (sortGames games)).bind (fun legs =>
    if finalCity base_city games ≠ base_city then
      match cityLookup cities (finalCity base_city games),
          cityLookup cities base_city, finalDate games with
      | some from_row, some to_row, some d =>
        some (legs ++ [{ date := d
                         from_city := finalCity base_city games
                         to_city := base_city
                         km := haversine from_row.lat from_row.lon
                           to_row.lat to_row.lon }])
      | _, _, _ => none
    else
      some legs)

/-!
Weekly aggregation and regular-grid alignment, from `analysis.py` lines 36-48.
-/

/-- Embedding of `legs["date"].dt.to_period("W").apply(lambda r: r.start_time)`:
the pandas weekly period (freq `W`, i.e. `W-SUN`, Monday through Sunday)
containing day `d`, represented by its start (the Monday).  With day 0 a
Monday this is `d - d % 7`. -/
def weekStartW (d : Nat) : Nat := d - d % 7

/-- Insert a week key into an ascending duplicate-free list, keeping it
ascending and duplicate-free (used to model the sorted unique group keys
produced by `groupby("week")` followed by `sort_index()`). -/
def insertWeek (x : Nat) : List Nat → List Nat
  | [] => [x]
  | y :: ys =>
    if x < y then x :: y :: ys
    else if x = y then y :: ys
    else y :: insertWeek x ys

/-- Sorted list of distinct week-start keys of the legs. -/
def weekKeys (legs : List Leg) : List Nat :=
  (legs.map (fun l => weekStartW l.date)).foldr insertWeek []

/-- Embedding of `legs.groupby("week")["km"].sum().sort_index()`: one point per
distinct week-start key (ascending), carrying the sum of `km` over the legs of
that week. -/
noncomputable def weeklyKm (legs : List Leg) : List (Nat × ℝ) :=
  (weekKeys legs).map (fun w =>
    (w, ((legs.filter (fun l => weekStartW l.date == w)).map Leg.km).sum))

/-- Embedding of `pd.date_range(start, stop, freq="W")`: the frequency alias
`W` is the anchored offset `W-SUN`, so the range consists of every Sunday
(day `d` with `d % 7 = 6`) lying in `[start, stop]`. -/
def dateRangeW (start stop : Nat) : List Nat :=
  (List.range (stop + 1)).filter (fun d => start ≤ d && d % 7 == 6)

/-- Embedding of
`pd.date_range(ts_km_weekly.index.min(), ts_km_weekly.index.max(), freq="W")`:
the regular weekly grid spanning the min and max keys of the weekly-km
series. -/
noncomputable def weeklyIndex (kmW : List (Nat × ℝ)) : List Nat :=
  match kmW.map Prod.fst with
  | [] => []
  | w :: ws => dateRangeW (ws.foldl min w) (ws.foldl max w)

/-- Embedding of `ts_km_weekly.reindex(weekly_index).fillna(0.0)`: for each
grid label take the series value at exactly that label, or `0.0` when the
label is absent. -/
noncomputable def reindexFillZero (kmW : List (Nat × ℝ)) (grid : List Nat) :
    List (Nat × ℝ) :=
  grid.map (fun w => (w, ((kmW.find? (fun p => p.fst == w)).map Prod.snd).getD 0.0))

/-!
Synthetic cost model, from `utils.basic_cost_model`.
-/

/-- The fixed seasonal curve of `basic_cost_model`:
`40.0 + 10.0*sin(2*pi*(month-1)/12.0) + 8.0*cos(2*pi*(month-3)/12.0)`. -/
noncomputable def seasonalFactor (month : Nat) : ℝ :=
  40.0 + 10.0 * Real.sin (2 * Real.pi * ((month : ℝ) - 1) / 12.0) +
    8.0 * Real.cos (2 * Real.pi * ((month : ℝ) - 3) / 12.0)

/-- Embedding of `utils.basic_cost_model`.  Each input point is a pair
`(month, km)` (`month` is `dt.month` of the series' own index date).  The
draws of `np.random.default_rng(seed).normal(0, 25.0)` form a sequence fully
determined by the seed; they are modelled by `rngNormal seed i` for the i-th
draw, `rngNormal` being the (deterministic) generator map.  Each cost is
`max(50.0, 0.12*km + seasonal + noise)`. -/
noncomputable def basic_cost_model (rngNormal : Nat → Nat → ℝ)
    (kmSeries : List (Nat × ℝ)) (seed : Nat := 0) : List ℝ :=
  kmSeries.enum.map (fun p =>
    max 50.0 (0.12 * p.snd.snd + seasonalFactor p.snd.fst + rngNormal seed p.fst))

/-!
Train/test split and forecast inputs, from `analysis.py` lines 51-63.
-/

/-- Embedding of `split = -8 if len(weekly_index) > 10 else -2` (as a count of
points taken from the end). -/
def splitCount (n : Nat) : Nat := if n > 10 then 8 else 2

/-- Embedding of `series.iloc[:split]`: all but the last `splitCount` points. -/
def trainPart (xs : List ℝ) : List ℝ :=
  xs.take (xs.length - splitCount xs.length)

/-- Embedding of `series.iloc[split:]`: the last `splitCount` points (the whole
series when it is shorter than that). -/
def testPart (xs : List ℝ) : List ℝ :=
  xs.drop (xs.length - splitCount xs.length)

/-- Embedding of `horizon = len(test_cost) + 12`. -/
def horizon (cost : List ℝ) : Nat := (testPart cost).length + 12

/-- Embedding of
`exog_future = pd.concat([test_km, pd.Series([0.0]*12, index=...)])`: the test
window's km values followed by twelve `0.0` entries. -/
def exogFuture (km : List ℝ) : List ℝ :=
  testPart km ++ List.replicate 12 0.0

/-!
Output columns of `assets/travel_legs.csv`, from `analysis.py`.
-/

/-- Columns of the dataframe built by `compute_trip_legs` (the dict keys of
each appended leg, in insertion order). -/
def legsColumns : List String := ["date", "from_city", "to_city", "km"]

/-- Columns of the dataframe actually written to `assets/travel_legs.csv`:
`main` executes `legs["week"] = ...` (adding a fifth column) before the final
`legs.to_csv(...)`, so the `week` column is part of the written file. -/
def travelLegsCsvColumns : List String := legsColumns ++ ["week"]

/-!
Specification-side derived notions used to state the claims.
-/

/-- The `prev_city` cursor in force when game `i` (0-based) of `games` is
processed: the venue city of the previous game, or the base city for the
first game. -/
def cursorBefore (base : String) (games : List Game) (i : Nat) : String :=
  ((games.take i).map Game.venue_city).getLast?.getD base

/-- The optional leg contributed by game `i` of `games`: a leg from the
current cursor to the game's venue exactly when they differ (requiring both
coordinate lookups to succeed). -/
noncomputable def legAt (cities : List City) (base : String) (games : List Game)
    (i : Nat) : Option Leg :=
  match games[i]? with
  | none => none
  | some g =>
    if g.venue_city ≠ cursorBefore base games i then
      match cityLookup cities (cursorBefore base games i),
          cityLookup cities g.venue_city with
      | some from_row, some to_row =>
        some { date := g.date
               from_city := cursorBefore base games i
               to_city := g.venue_city
               km := haversine from_row.lat from_row.lon to_row.lat to_row.lon }
      | _, _ => none
    else none

/-- The connected-chain invariant of a leg list: starting from city `c`, each
leg departs from where the previous one arrived, and no leg is a self-loop. -/
def ChainFrom (c : String) : List Leg → Prop
  | [] => True
  | l :: ls => l.from_city = c ∧ l.to_city ≠ l.from_city ∧ ChainFrom l.to_city ls

/-- City in which a chain of legs starting at `c` ends. -/
def endCity (c : String) (legs : List Leg) : String :=
  (legs.map Leg.to_city).getLast?.getD c

/-!
Concrete inputs used for witnesses and counterexamples.  Day numbers count
from 2024-01-01 (a Monday): 2024-01-05 is day 4 and 2024-01-15 is day 14.
-/

/-- Sample coordinate table (rows of `data/cities.csv`). -/
def citiesEx : List City :=
  [{ city := "Dallas", lat := 32.78, lon := -96.80, airport := "DFW" },
   { city := "Denver", lat := 39.74, lon := -104.99, airport := "DEN" },
   { city := "Omaha", lat := 41.26, lon := -95.93, airport := "OMA" }]

/-- Coordinate table containing only the home base. -/
def citiesDallasOnly : List City :=
  [{ city := "Dallas", lat := 32.78, lon := -96.80, airport := "DFW" }]

/-- Two-game January schedule spanning two distinct weeks. -/
def gamesJan : List Game := [⟨4, "Denver"⟩, ⟨14, "Omaha"⟩]

/-- Legs produced for `gamesJan` (a successful run, extracted). -/
noncomputable def legsJan : List Leg :=
  (computeTripLegs gamesJan citiesEx "Dallas").getD []

/-- Single-game schedule: one game at Denver on 2024-01-05 (day 4). -/
def gamesDenver : List Game := [⟨4, "Denver"⟩]

/-- Outbound leg of the Denver round trip. -/
noncomputable def legOut : Leg :=
  { date := 4, from_city := "Dallas", to_city := "Denver",
    km := haversine 32.78 (-96.80) 39.74 (-104.99) }

/-- Return leg of the Denver round trip. -/
noncomputable def legHome : Leg :=
  { date := 4, from_city := "Denver", to_city := "Dallas",
    km := haversine 39.74 (-104.99) 32.78 (-96.80) }

/-- The round trip produced for `gamesDenver`: out to Denver and back home,
both legs dated at the game's date. -/
noncomputable def legsRoundTrip : List Leg := [legOut, legHome]

/-!
Helper lemmas.
-/

theorem getLastD_cons {α : Type _} :
    ∀ (l : List α) (a b : α), (a :: l).getLast?.getD b = l.getLast?.getD a
  | [], _, _ => rfl
  | c :: t, a, b => by
    rw [List.getLast?_cons_cons]
    exact (getLastD_cons t c b).trans (getLastD_cons t c a).symm

/-- A date-sorted list of games is left unchanged by `sortGames`. -/
theorem sortGames_eq_self {games : List Game}
    (h : games.Pairwise (fun a b => a.date ≤ b.date)) : sortGames games = games := by
  induction games with
  | nil => rfl
  | cons g gs ih =>
    rcases List.pairwise_cons.mp h with ⟨hg, hgs⟩
    show insertGame g (sortGames gs) = g :: gs
    rw [ih hgs]
    cases gs with
    | nil => rfl
    | cons h2 t => simp [insertGame, hg h2 (by simp)]

theorem cursorBefore_zero (base : String) (games : List Game) :
    cursorBefore base games 0 = base := rfl

theorem cursorBefore_succ (base : String) (g : Game) (gs : List Game) (i : Nat) :
    cursorBefore base (g :: gs) (i + 1) = cursorBefore g.venue_city gs i := by
  unfold cursorBefore
  rw [List.take_succ_cons, List.map_cons, getLastD_cons]

theorem legAt_succ (cities : List City) (base : String) (g : Game)
    (gs : List Game) (i : Nat) :
    legAt cities base (g :: gs) (i + 1) = legAt cities g.venue_city gs i := by
  unfold legAt
  rw [List.getElem?_cons_succ, cursorBefore_succ]

/-- The cursor before game `i + 1` is game `i`'s venue city. -/
theorem cursorBefore_succ_get (base : String) (games : List Game) (i : Nat)
    (h : i < games.length) :
    cursorBefore base games (i + 1) = (games.get ⟨i, h⟩).venue_city := by
  unfold cursorBefore
  rw [List.take_succ, List.getElem?_eq_getElem h, Option.toList_some,
    List.map_append, List.map_singleton, List.getLast?_concat]
  rfl

/-- Success of the loop characterised positionally: the emitted legs are
exactly the per-game optional legs, in game order. -/
theorem legsLoop_eq_filterMap (cities : List City) :
    ∀ (games : List Game) (cursor : String) (legs : List Leg),
      legsLoop cities cursor games = some legs →
      legs = (List.range games.length).filterMap (legAt cities cursor games) := by
  intro games
  induction games with
  | nil =>
    intro cursor legs h
    simp only [legsLoop, Option.some_inj] at h
    simp [h.symm]
  | cons g gs ih =>
    intro cursor legs h
    have hcomp : (legAt cities cursor (g :: gs)) ∘ Nat.succ = legAt cities g.venue_city gs :=
      funext fun i => legAt_succ cities cursor g gs i
    have hrange : List.range (g :: gs).length =
        0 :: (List.range gs.length).map Nat.succ := by
      rw [List.length_cons, List.range_succ_eq_map]
    simp only [legsLoop] at h
    by_cases hv : g.venue_city = cursor
    · rw [if_neg (by simp [hv])] at h
      have h0 : legAt cities cursor (g :: gs) 0 = none := by
        unfold legAt
        simp [cursorBefore_zero, hv]
      rw [hrange, List.filterMap_cons_none h0, List.filterMap_map, hcomp]
      exact ih g.venue_city legs h
    · rw [if_pos hv] at h
      cases hfr : cityLookup cities cursor with
      | none =>
        rw [hfr] at h
        cases hto : cityLookup cities g.venue_city <;> rw [hto] at h <;>
          exact absurd h (by simp)
      | some from_row =>
        cases hto : cityLookup cities g.venue_city with
        | none => rw [hfr, hto] at h; exact absurd h (by simp)
        | some to_row =>
          rw [hfr, hto] at h
          cases hrest : legsLoop cities g.venue_city gs with
          | none => rw [hrest] at h; exact absurd h (by simp)
          | some rest =>
            rw [hrest] at h
            simp only [Option.map_some', Option.some_inj] at h
            have h0 : legAt cities cursor (g :: gs) 0 =
                some { date := g.date
                       from_city := cursor
                       to_city := g.venue_city
                       km := haversine from_row.lat from_row.lon to_row.lat to_row.lon } := by
              unfold legAt
              simp [cursorBefore_zero, hv, hfr, hto]
            rw [hrange, List.filterMap_cons_some h0, List.filterMap_map, hcomp]
            rw [← h]
            exact congrArg _ (ih g.venue_city rest hrest)

/-- Case analysis of a successful `computeTripLegs` run: the loop succeeded,
and either the final cursor is the base city and nothing is appended, or a
closing leg home (dated at the loop's final date) is appended. -/
theorem computeTripLegs_cases (games : List Game) (cities : List City)
    (base : String) (legs : List Leg)
    (h : computeTripLegs games cities base = some legs) :
    ∃ loopLegs, legsLoop cities base (sortGames games) = some loopLegs ∧
      ((finalCity base games = base ∧ legs = loopLegs) ∨
       (finalCity base games ≠ base ∧ ∃ from_row to_row d,
          cityLookup cities (finalCity base games) = some from_row ∧
          cityLookup cities base = some to_row ∧ finalDate games = some d ∧
          legs = loopLegs ++
            [{ date := d
               from_city := finalCity base games
               to_city := base
               km := haversine from_row.lat from_row.lon to_row.lat to_row.lon }])) := by
  unfold computeTripLegs at h
  cases hl : legsLoop cities base (sortGames games) with
  | none => rw [hl] at h; exact absurd h (by simp)
  | some loopLegs =>
    rw [hl, Option.some_bind] at h
    refine ⟨loopLegs, rfl, ?_⟩
    by_cases hfin : finalCity base games = base
    · rw [if_neg (by simp [hfin])] at h
      exact Or.inl ⟨hfin, (Option.some_inj.mp h).symm⟩
    · rw [if_pos hfin] at h
      cases hfr : cityLookup cities (finalCity base games) with
      | none =>
        rw [hfr] at h
        cases cityLookup cities base <;> cases finalDate games <;>
          exact absurd h (by simp)
      | some from_row =>
        cases hto : cityLookup cities base with
        | none =>
          rw [hfr, hto] at h
          cases finalDate games <;> exact absurd h (by simp)
        | some to_row =>
          cases hd : finalDate games with
          | none => rw [hfr, hto, hd] at h; exact absurd h (by simp)
          | some d =>
            rw [hfr, hto, hd] at h
            exact Or.inr ⟨hfin, from_row, to_row, d, rfl, rfl, rfl,
              (Option.some_inj.mp h).symm⟩

/-- The loop emits a connected chain from the initial cursor, ending at the
last venue city (the cursor's final value). -/
theorem legsLoop_chain (cities : List City) :
    ∀ (games : List Game) (cursor : String) (legs : List Leg),
      legsLoop cities cursor games = some legs →
      ChainFrom cursor legs ∧
        endCity cursor legs = (games.map Game.venue_city).getLast?.getD cursor := by
  intro games
  induction games with
  | nil =>
    intro cursor legs h
    simp only [legsLoop, Option.some_inj] at h
    subst h
    exact ⟨trivial, rfl⟩
  | cons g gs ih =>
    intro cursor legs h
    simp only [legsLoop] at h
    rw [List.map_cons, getLastD_cons]
    by_cases hv : g.venue_city = cursor
    · rw [if_neg (by simp [hv])] at h
      rcases ih g.venue_city legs h with ⟨hch, hend⟩
      rw [hv] at hch hend ⊢
      exact ⟨hch, hend⟩
    · rw [if_pos hv] at h
      cases hfr : cityLookup cities cursor with
      | none =>
        rw [hfr] at h
        cases cityLookup cities g.venue_city <;> exact absurd h (by simp)
      | some from_row =>
        cases hto : cityLookup cities g.venue_city with
        | none => rw [hfr, hto] at h; exact absurd h (by simp)
        | some to_row =>
          rw [hfr, hto] at h
          cases hrest : legsLoop cities g.venue_city gs with
          | none => rw [hrest] at h; exact absurd h (by simp)
          | some rest =>
            rw [hrest] at h
            simp only [Option.map_some', Option.some_inj] at h
            subst h
            rcases ih g.venue_city rest hrest with ⟨hch, hend⟩
            refine ⟨⟨rfl, hv, hch⟩, ?_⟩
            rw [show endCity cursor
                ({ date := g.date, from_city := cursor, to_city := g.venue_city,
                   km := haversine from_row.lat from_row.lon to_row.lat to_row.lon } :: rest) =
                endCity g.venue_city rest from by
              unfold endCity; rw [List.map_cons, getLastD_cons]]
            exact hend

/-- Appending a leg that departs from the chain's end city and is not a
self-loop preserves the chain invariant. -/
theorem chainFrom_append_closing :
    ∀ (legs : List Leg) (c : String) (x : Leg), ChainFrom c legs →
      x.from_city = endCity c legs → x.to_city ≠ x.from_city →
      ChainFrom c (legs ++ [x])
  | [], c, x, _, hfrom, hne => by
    refine ⟨?_, hne, trivial⟩
    rw [hfrom]; rfl
  | l :: ls, c, x, hch, hfrom, hne => by
    rcases hch with ⟨hf, hl, hch⟩
    refine ⟨hf, hl, ?_⟩
    refine chainFrom_append_closing ls l.to_city x hch ?_ hne
    rw [hfrom]
    unfold endCity
    rw [List.map_cons, getLastD_cons]

/-- Whenever the loop succeeds, every coordinate lookup at an emission point
succeeded (contrapositive workhorse for the failure claim). -/
theorem legsLoop_lookups (cities : List City) :
    ∀ (games : List Game) (cursor : String) (legs : List Leg),
      legsLoop cities cursor games = some legs →
      ∀ i g, games[i]? = some g → g.venue_city ≠ cursorBefore cursor games i →
        (cityLookup cities (cursorBefore cursor games i)).isSome ∧
          (cityLookup cities g.venue_city).isSome := by
  intro games
  induction games with
  | nil => intro cursor legs _ i g hg; simp at hg
  | cons g0 gs ih =>
    intro cursor legs h i g hg hne
    simp only [legsLoop] at h
    cases i with
    | zero =>
      simp only [List.getElem?_cons_zero, Option.some_inj] at hg
      subst hg
      rw [cursorBefore_zero] at hne ⊢
      rw [if_pos hne] at h
      cases hfr : cityLookup cities cursor with
      | none =>
        rw [hfr] at h
        cases cityLookup cities g0.venue_city <;> exact absurd h (by simp)
      | some from_row =>
        cases hto : cityLookup cities g0.venue_city with
        | none => rw [hfr, hto] at h; exact absurd h (by simp)
        | some to_row => exact ⟨rfl, rfl⟩
    | succ j =>
      rw [List.getElem?_cons_succ] at hg
      rw [cursorBefore_succ] at hne ⊢
      by_cases hv : g0.venue_city = cursor
      · rw [if_neg (by simp [hv])] at h
        exact ih g0.venue_city legs h j g hg hne
      · rw [if_pos hv] at h
        cases hfr : cityLookup cities cursor with
        | none =>
          rw [hfr] at h
          cases cityLookup cities g0.venue_city <;> exact absurd h (by simp)
        | some from_row =>
          cases hto : cityLookup cities g0.venue_city with
          | none => rw [hfr, hto] at h; exact absurd h (by simp)
          | some to_row =>
            rw [hfr, hto] at h
            cases hrest : legsLoop cities g0.venue_city gs with
            | none => rw [hrest] at h; exact absurd h (by simp)
            | some rest => exact ih g0.venue_city rest hrest j g hg hne

/-- Haversine is symmetric in its two endpoints. -/
theorem haversine_comm (lat1 lon1 lat2 lon2 : ℝ) :
    haversine lat1 lon1 lat2 lon2 = haversine lat2 lon2 lat1 lon1 := by
  simp only [haversine, radians]
  rw [show (lat1 - lat2) * Real.pi / 180 / 2 = -((lat2 - lat1) * Real.pi / 180 / 2) from
      by ring,
    show (lon1 - lon2) * Real.pi / 180 / 2 = -((lon2 - lon1) * Real.pi / 180 / 2) from
      by ring,
    Real.sin_neg, Real.sin_neg, neg_sq, neg_sq,
    mul_comm (Real.cos (lat2 * Real.pi / 180)) (Real.cos (lat1 * Real.pi / 180))]

/-- Two-sided Taylor-style enclosure for cosine on a rational subinterval of
the unit interval. -/
theorem cos_interval {x lo hi : ℝ} (h1 : lo ≤ x) (h2 : x ≤ hi) (h0 : 0 ≤ lo)
    (hhi : hi ≤ 1) :
    1 - hi ^ 2 / 2 - hi ^ 4 * (5 / 96) ≤ Real.cos x ∧
      Real.cos x ≤ 1 - lo ^ 2 / 2 + hi ^ 4 * (5 / 96) := by
  have hx : 0 ≤ x := le_trans h0 h1
  have habs : |x| ≤ 1 := abs_le.mpr ⟨by linarith, by linarith⟩
  have hb := abs_le.mp (Real.cos_bound habs)
  rw [abs_of_nonneg hx] at hb
  have hsq : lo ^ 2 ≤ x ^ 2 := pow_le_pow_left₀ h0 h1 2
  have hq : x ^ 4 ≤ hi ^ 4 := pow_le_pow_left₀ hx h2 4
  constructor
  · nlinarith [hb.1, hb.2]
  · nlinarith [hb.1, hb.2]

/-- Two-sided Taylor-style enclosure for sine on a rational subinterval of
the unit interval. -/
theorem sin_interval {x lo hi : ℝ} (h1 : lo ≤ x) (h2 : x ≤ hi) (h0 : 0 ≤ lo)
    (hhi : hi ≤ 1) :
    lo - hi ^ 3 / 6 - hi ^ 4 * (5 / 96) ≤ Real.sin x ∧
      Real.sin x ≤ hi - lo ^ 3 / 6 + hi ^ 4 * (5 / 96) := by
  have hx : 0 ≤ x := le_trans h0 h1
  have habs : |x| ≤ 1 := abs_le.mpr ⟨by linarith, by linarith⟩
  have hb := abs_le.mp (Real.sin_bound habs)
  rw [abs_of_nonneg hx] at hb
  have hc1 : lo ^ 3 ≤ x ^ 3 := pow_le_pow_left₀ h0 h1 3
  have hc2 : x ^ 3 ≤ hi ^ 3 := pow_le_pow_left₀ hx h2 3
  have hq : x ^ 4 ≤ hi ^ 4 := pow_le_pow_left₀ hx h2 4
  constructor
  · nlinarith [hb.1, hb.2]
  · nlinarith [hb.1, hb.2]

/-- Enclosure for `arcsin (sqrt A)` for `A` in the concrete interval arising
in the Dallas-Denver distance computation. -/
theorem arcsin_sqrt_bounds {A : ℝ} (h1 : (0.00685 : ℝ) ≤ A)
    (h2 : A ≤ 0.006998) :
    0.08276 < Real.arcsin (Real.sqrt A) ∧
      Real.arcsin (Real.sqrt A) ≤ 0.08378 := by
  have hpi1 : (3.141592 : ℝ) < Real.pi := Real.pi_gt_d6
  have hsl : (0.08276 : ℝ) ≤ Real.sqrt A := by
    rw [show (0.08276 : ℝ) = Real.sqrt (0.08276 ^ 2) from
      (Real.sqrt_sq (by norm_num)).symm]
    exact Real.sqrt_le_sqrt (by nlinarith)
  have hsu : Real.sqrt A ≤ 0.08366 := by
    rw [show (0.08366 : ℝ) = Real.sqrt (0.08366 ^ 2) from
      (Real.sqrt_sq (by norm_num)).symm]
    exact Real.sqrt_le_sqrt (by nlinarith)
  have hpos : (0 : ℝ) < Real.sqrt A := by linarith
  constructor
  · have harc : 0 < Real.arcsin (Real.sqrt A) := Real.arcsin_pos.mpr hpos
    have hsin : Real.sin (Real.arcsin (Real.sqrt A)) = Real.sqrt A :=
      Real.sin_arcsin (by linarith) (by linarith)
    have := Real.sin_lt harc
    rw [hsin] at this
    linarith
  · have hsc : (0.08366 : ℝ) ≤ Real.sin 0.08378 := by
      have hs := (@sin_interval (0.08378 : ℝ) 0.08378 0.08378
        le_rfl le_rfl (by norm_num) (by norm_num)).1
      nlinarith [hs]
    have : Real.arcsin (Real.sqrt A) ≤ Real.arcsin (Real.sin 0.08378) :=
      Real.monotone_arcsin (by linarith)
    rwa [Real.arcsin_sin (by linarith) (by linarith)] at this

set_option maxHeartbeats 1000000 in
/-- Interval-arithmetic bounds on the Dallas-Denver great-circle distance:
it lies strictly between 1050 km and 1070 km. -/
theorem hav_dallas_denver_bounds :
    1050 < haversine 32.78 (-96.80) 39.74 (-104.99) ∧
      haversine 32.78 (-96.80) 39.74 (-104.99) < 1070 := by
  have hpi1 : (3.141592 : ℝ) < Real.pi := Real.pi_gt_d6
  have hpi2 : Real.pi < 3.141593 := Real.pi_lt_d6
  simp only [haversine, radians]
  rw [show ((39.74 : ℝ) - 32.78) * Real.pi / 180 / 2 = 6.96 * Real.pi / 360 from by
      ring,
    show ((-104.99 : ℝ) - -96.80) * Real.pi / 180 / 2 = -(8.19 * Real.pi / 360) from by
      ring,
    Real.sin_neg, neg_sq]
  have hs1 := @sin_interval (6.96 * Real.pi / 360) 0.0607374 0.0607375
    (by linarith) (by linarith) (by norm_num) (by norm_num)
  have hs1n : (0.0606993 : ℝ) ≤ Real.sin (6.96 * Real.pi / 360) ∧
      Real.sin (6.96 * Real.pi / 360) ≤ 0.0607009 :=
    ⟨by linarith [hs1.1], by linarith [hs1.2]⟩
  have hsq1 : (0.0036844 : ℝ) ≤ Real.sin (6.96 * Real.pi / 360) ^ 2 ∧
      Real.sin (6.96 * Real.pi / 360) ^ 2 ≤ 0.0036846 := by
    constructor <;> nlinarith [hs1n.1, hs1n.2]
  have hs2 := @sin_interval (8.19 * Real.pi / 360) 0.0714712 0.0714713
    (by linarith) (by linarith) (by norm_num) (by norm_num)
  have hs2n : (0.0714089 : ℝ) ≤ Real.sin (8.19 * Real.pi / 360) ∧
      Real.sin (8.19 * Real.pi / 360) ≤ 0.0714119 :=
    ⟨by linarith [hs2.1], by linarith [hs2.2]⟩
  have hsq2 : (0.0050992 : ℝ) ≤ Real.sin (8.19 * Real.pi / 360) ^ 2 ∧
      Real.sin (8.19 * Real.pi / 360) ^ 2 ≤ 0.0050997 := by
    constructor <;> nlinarith [hs2n.1, hs2n.2]
  have hc1 := @cos_interval (32.78 * Real.pi / 180) 0.5721188 0.5721190
    (by linarith) (by linarith) (by norm_num) (by norm_num)
  have hc1n : (0.830759 : ℝ) ≤ Real.cos (32.78 * Real.pi / 180) ∧
      Real.cos (32.78 * Real.pi / 180) ≤ 0.8419202 :=
    ⟨by linarith [hc1.1], by linarith [hc1.2]⟩
  have hc2 := @cos_interval (39.74 * Real.pi / 180) 0.6935936 0.6935940
    (by linarith) (by linarith) (by norm_num) (by norm_num)
  have hc2n : (0.7474099 : ℝ) ≤ Real.cos (39.74 * Real.pi / 180) ∧
      Real.cos (39.74 * Real.pi / 180) ≤ 0.7715177 :=
    ⟨by linarith [hc2.1], by linarith [hc2.2]⟩
  have hcc_lo : (0.830759 : ℝ) * 0.7474099 ≤
      Real.cos (32.78 * Real.pi / 180) * Real.cos (39.74 * Real.pi / 180) :=
    mul_le_mul hc1n.1 hc2n.1 (by norm_num) (by linarith [hc1n.1])
  have hcc_hi : Real.cos (32.78 * Real.pi / 180) * Real.cos (39.74 * Real.pi / 180) ≤
      (0.8419202 : ℝ) * 0.7715177 :=
    mul_le_mul hc1n.2 hc2n.2 (by linarith [hc2n.1]) (by norm_num)
  have hP_lo : (0.830759 : ℝ) * 0.7474099 * 0.0050992 ≤
      Real.cos (32.78 * Real.pi / 180) * Real.cos (39.74 * Real.pi / 180) *
        Real.sin (8.19 * Real.pi / 360) ^ 2 :=
    mul_le_mul hcc_lo hsq2.1 (by norm_num) (by linarith [hcc_lo])
  have hP_hi : Real.cos (32.78 * Real.pi / 180) * Real.cos (39.74 * Real.pi / 180) *
        Real.sin (8.19 * Real.pi / 360) ^ 2 ≤ (0.8419202 : ℝ) * 0.7715177 * 0.0050997 :=
    mul_le_mul hcc_hi hsq2.2 (sq_nonneg _) (by norm_num)
  have hA1 : (0.00685 : ℝ) ≤ Real.sin (6.96 * Real.pi / 360) ^ 2 +
      Real.cos (32.78 * Real.pi / 180) * Real.cos (39.74 * Real.pi / 180) *
        Real.sin (8.19 * Real.pi / 360) ^ 2 := by linarith [hsq1.1, hP_lo]
  have hA2 : Real.sin (6.96 * Real.pi / 360) ^ 2 +
      Real.cos (32.78 * Real.pi / 180) * Real.cos (39.74 * Real.pi / 180) *
        Real.sin (8.19 * Real.pi / 360) ^ 2 ≤ 0.006998 := by linarith [hsq1.2, hP_hi]
  have harc := arcsin_sqrt_bounds hA1 hA2
  constructor
  · linarith [harc.1]
  · linarith [harc.2]

/-- Haversine distances are never negative. -/
theorem haversine_nonneg (lat1 lon1 lat2 lon2 : ℝ) :
    0 ≤ haversine lat1 lon1 lat2 lon2 := by
  simp only [haversine, radians]
  have h := Real.arcsin_nonneg.mpr (Real.sqrt_nonneg
    (Real.sin ((lat2 - lat1) * Real.pi / 180 / 2) ^ 2 +
      Real.cos (lat1 * Real.pi / 180) * Real.cos (lat2 * Real.pi / 180) *
        Real.sin ((lon2 - lon1) * Real.pi / 180 / 2) ^ 2))
  linarith

/-!
Claim theorems.
-/

/-- C1 (code-bug evaluation): on a two-leg January schedule the weekly-km
series is keyed by week-start Mondays (days 0 and 14), but the regular grid
built with frequency `W` consists of Sundays (days 6 and 13); no week of the
km series lies on the grid, the reindexed km series is `0.0` everywhere, and
the positive total distance is lost. -/
theorem weekly_grid_misalignment :
    (weeklyKm legsJan).map Prod.fst = [0, 14] ∧
    weeklyIndex (weeklyKm legsJan) = [6, 13] ∧
    (0 ∈ (weeklyKm legsJan).map Prod.fst ∧
      0 ∉ weeklyIndex (weeklyKm legsJan)) ∧
    (reindexFillZero (weeklyKm legsJan)
        (weeklyIndex (weeklyKm legsJan))).map Prod.snd = [0.0, 0.0] ∧
    0 < ((weeklyKm legsJan).map Prod.snd).sum := by
  refine ⟨rfl, rfl, ⟨?_, ?_⟩, rfl, ?_⟩
  · rw [show (weeklyKm legsJan).map Prod.fst = [0, 14] from rfl]
    decide
  · rw [show weeklyIndex (weeklyKm legsJan) = [6, 13] from rfl]
    decide
  · rw [show (weeklyKm legsJan).map Prod.snd =
        [List.sum [haversine 32.78 (-96.80) 39.74 (-104.99)],
         List.sum [haversine 39.74 (-104.99) 41.26 (-95.93),
           haversine 41.26 (-95.93) 32.78 (-96.80)]] from rfl]
    simp only [List.sum_cons, List.sum_nil, add_zero]
    have h1 := hav_dallas_denver_bounds.1
    have h2 := haversine_nonneg 39.74 (-104.99) 41.26 (-95.93)
    have h3 := haversine_nonneg 41.26 (-95.93) 32.78 (-96.80)
    linarith

/-- C6, counterexample: the Dallas/Denver single-game example produces the
asserted pair of legs, but both km values exceed 880 — they do not lie in the
claimed 875-880 range. -/
theorem dallas_denver_example_counterexample :
    computeTripLegs gamesDenver citiesEx "Dallas" = some legsRoundTrip ∧
    880 < haversine 32.78 (-96.80) 39.74 (-104.99) ∧
    880 < haversine 39.74 (-104.99) 32.78 (-96.80) := by
  refine ⟨rfl, by linarith [hav_dallas_denver_bounds.1], ?_⟩
  rw [haversine_comm 39.74 (-104.99) 32.78 (-96.80)]
  linarith [hav_dallas_denver_bounds.1]

/-- C6, amended: for home base Dallas (32.78, -96.80) and a single game at
Denver (39.74, -104.99) on 2024-01-05 (day 4), `compute_trip_legs` returns
exactly the two legs Dallas-Denver and Denver-Dallas on that date, with equal
km values lying strictly between 1050 and 1070 (about 1066, not 875-880). -/
theorem dallas_denver_example_amended :
    ∃ k : ℝ, computeTripLegs gamesDenver citiesEx "Dallas" =
        some [{ date := 4, from_city := "Dallas", to_city := "Denver", km := k },
              { date := 4, from_city := "Denver", to_city := "Dallas", km := k }] ∧
      1050 < k ∧ k < 1070 := by
  refine ⟨haversine 32.78 (-96.80) 39.74 (-104.99), ?_,
    hav_dallas_denver_bounds.1, hav_dallas_denver_bounds.2⟩
  rw [show computeTripLegs gamesDenver citiesEx "Dallas" = some legsRoundTrip from
    rfl]
  unfold legsRoundTrip legOut legHome
  rw [haversine_comm 39.74 (-104.99) 32.78 (-96.80)]

/-- C10: every successful `compute_trip_legs` result is a connected chain:
the first leg leaves the home base, each leg departs from the previous leg's
destination, and no leg has equal endpoints. -/
theorem compute_trip_legs_chain (games : List Game) (cities : List City)
    (base : String) (legs : List Leg)
    (h : computeTripLegs games cities base = some legs) :
    ChainFrom base legs := by
  rcases computeTripLegs_cases games cities base legs h with ⟨loopLegs, hl, hcase⟩
  rcases legsLoop_chain cities (sortGames games) base loopLegs hl with ⟨hch, hend⟩
  rcases hcase with ⟨_, rfl⟩ | ⟨hfin, from_row, to_row, d, hfr, hto, hd, rfl⟩
  · exact hch
  · apply chainFrom_append_closing loopLegs base _ hch
    · show finalCity base games = endCity base loopLegs
      rw [hend]
      rfl
    · show (base : String) ≠ finalCity base games
      exact fun hb => hfin hb.symm

/-- Witness for C10: the Denver round trip is a chain from Dallas. -/
theorem compute_trip_legs_chain_witness :
    computeTripLegs gamesDenver citiesEx "Dallas" = some legsRoundTrip ∧
    ChainFrom "Dallas" legsRoundTrip :=
  ⟨rfl, compute_trip_legs_chain gamesDenver citiesEx "Dallas" legsRoundTrip rfl⟩

/-- C5, counterexample: the leg table written to `assets/travel_legs.csv`
does not have exactly the columns `date, from_city, to_city, km` — `main`
added a `week` column to the same dataframe before writing it. -/
theorem travel_legs_csv_columns_counterexample :
    travelLegsCsvColumns ≠ ["date", "from_city", "to_city", "km"] := by decide

/-- C5, amended: the CSV written to `assets/travel_legs.csv` has exactly the
columns `date, from_city, to_city, km, week` (the `week` bucketing column
added in `main` persists into the written file). -/
theorem travel_legs_csv_columns_amended :
    travelLegsCsvColumns = ["date", "from_city", "to_city", "km", "week"] := rfl

/-- C7: every value produced by the synthetic cost model is at least 50.0,
for any month/km input series and any noise draws. -/
theorem basic_cost_model_floor (rngNormal : Nat → Nat → ℝ)
    (kmSeries : List (Nat × ℝ)) (seed : Nat) :
    ∀ c ∈ basic_cost_model rngNormal kmSeries seed, 50.0 ≤ c := by
  intro c hc
  rcases List.mem_map.mp hc with ⟨p, _, hrfl⟩
  rw [← hrfl]
  exact le_max_left _ _

/-- Witness for C7 at a concrete point: `month = 1`, `km = 100`, noise draw
`-1000`; the produced cost is still at least 50.0. -/
theorem basic_cost_model_floor_witness :
    (50.0 : ℝ) ≤ max 50.0 (0.12 * 100 + seasonalFactor 1 + (-1000)) :=
  basic_cost_model_floor (fun _ _ => -1000) [(1, 100)] 0 _
    (List.mem_singleton.mpr rfl)

/-- C9: the synthetic cost model is deterministic given the seed — with the
generator's draw sequence a function of the seed, equal seeds and equal
input series produce equal cost series. -/
theorem basic_cost_model_deterministic (rngNormal : Nat → Nat → ℝ)
    (seed : Nat) (s1 s2 : List (Nat × ℝ)) (h : s1 = s2) :
    basic_cost_model rngNormal s1 seed = basic_cost_model rngNormal s2 seed := by
  rw [h]

/-- Witness for C9: two runs with seed 0 on the same one-point series
coincide. -/
theorem basic_cost_model_deterministic_witness :
    ([((1 : Nat), (100 : ℝ))] = [(1, 100)]) ∧
    basic_cost_model (fun _ _ => 0) [(1, 100)] 0 =
      basic_cost_model (fun _ _ => 0) [(1, 100)] 0 :=
  ⟨rfl, basic_cost_model_deterministic (fun _ _ => 0) 0 [(1, 100)] [(1, 100)] rfl⟩

/-- C8: the forecast horizon always equals the number of test points plus 12,
and the future exogenous series is the test window's km values followed by
exactly twelve `0.0` entries (so the final 12 forecast steps see km `0.0`). -/
theorem forecast_horizon_and_exog (cost km : List ℝ)
    (h : cost.length = km.length) :
    horizon cost = (testPart cost).length + 12 ∧
    (exogFuture km).length = horizon cost ∧
    (exogFuture km).take (testPart km).length = testPart km ∧
    (exogFuture km).drop (testPart km).length = List.replicate 12 0.0 := by
  refine ⟨rfl, ?_, ?_, ?_⟩
  · unfold exogFuture horizon testPart splitCount
    rw [List.length_append, List.length_replicate, List.length_drop,
      List.length_drop, h]
  · unfold exogFuture
    exact List.take_left _ _
  · unfold exogFuture
    exact List.drop_left _ _

/-- Witness for C8 on a concrete three-week pair of aligned series. -/
theorem forecast_horizon_and_exog_witness :
    ([(1 : ℝ), 2, 3].length = [(4 : ℝ), 5, 6].length) ∧
    (horizon [1, 2, 3] = (testPart [1, 2, 3]).length + 12 ∧
     (exogFuture [4, 5, 6]).length = horizon [1, 2, 3] ∧
     (exogFuture [4, 5, 6]).take (testPart [4, 5, 6]).length = testPart [4, 5, 6] ∧
     (exogFuture [4, 5, 6]).drop (testPart [4, 5, 6]).length =
       List.replicate 12 0.0) :=
  ⟨rfl, forecast_horizon_and_exog [1, 2, 3] [4, 5, 6] rfl⟩

/-- A game whose venue equals the cursor before it contributes no leg. -/
theorem legAt_none_of_no_move (cities : List City) (base : String)
    (games : List Game) (i : Nat) (g : Game) (hg : games[i]? = some g)
    (hv : g.venue_city = cursorBefore base games i) :
    legAt cities base games i = none := by
  unfold legAt
  rw [hg]
  simp [hv]

/-- C2: over a chronologically ordered schedule, the loop of
`compute_trip_legs` emits a leg for game `i` exactly when its venue differs
from the cursor before it (venue of game `i-1`, or the base city), the leg
carrying the game's date, the cursor as origin, the venue as destination and
the haversine distance of the two looked-up coordinate rows; consecutive
games at the same venue contribute no leg. -/
theorem compute_trip_legs_emission (cities : List City) (base : String)
    (games : List Game) (legs : List Leg)
    (hs : games.Pairwise (fun a b => a.date ≤ b.date))
    (h : legsLoop cities base (sortGames games) = some legs) :
    legs = (List.range games.length).filterMap (legAt cities base games) ∧
    (∀ l ∈ legs, ∃ from_row to_row,
        cityLookup cities l.from_city = some from_row ∧
        cityLookup cities l.to_city = some to_row ∧
        l.km = haversine from_row.lat from_row.lon to_row.lat to_row.lon) ∧
    ∀ i, (h1 : i + 1 < games.length) →
      (games.get ⟨i, Nat.lt_of_succ_lt h1⟩).venue_city =
        (games.get ⟨i + 1, h1⟩).venue_city →
      legAt cities base games (i + 1) = none := by
  rw [sortGames_eq_self hs] at h
  have hchar := legsLoop_eq_filterMap cities games base legs h
  refine ⟨hchar, ?_, ?_⟩
  · intro l hl
    rw [hchar] at hl
    rcases List.mem_filterMap.mp hl with ⟨i, _, hleg⟩
    unfold legAt at hleg
    split at hleg
    · exact absurd hleg (by simp)
    · split at hleg
      · split at hleg
        · rename_i from_row to_row hfr hto
          simp only [Option.some_inj] at hleg
          subst hleg
          exact ⟨from_row, to_row, hfr, hto, rfl⟩
        · exact absurd hleg (by simp)
      · exact absurd hleg (by simp)
  · intro i h1 hvv
    refine legAt_none_of_no_move cities base games (i + 1) _
      (List.getElem?_eq_getElem h1) ?_
    rw [cursorBefore_succ_get base games i (Nat.lt_of_succ_lt h1)]
    exact hvv.symm

/-- Witness for C2: the one-game Denver schedule (sorted), with its leg
characterised positionally. -/
theorem compute_trip_legs_emission_witness :
    gamesDenver.Pairwise (fun a b => a.date ≤ b.date) ∧
    legsLoop citiesEx "Dallas" (sortGames gamesDenver) = some [legOut] ∧
    [legOut] =
      (List.range gamesDenver.length).filterMap (legAt citiesEx "Dallas" gamesDenver) :=
  ⟨by decide, rfl,
    (compute_trip_legs_emission citiesEx "Dallas" gamesDenver
      [legOut] (by decide) rfl).1⟩

/-- C3: `compute_trip_legs` on no games returns no legs; on a nonempty
date-ordered schedule it appends a closing leg home exactly when the last
venue differs from the home base, and that closing leg is dated at the last
game's date. -/
theorem compute_trip_legs_closing (cities : List City) (base : String) :
    computeTripLegs [] cities base = some [] ∧
    ∀ games : List Game, games ≠ [] →
      games.Pairwise (fun a b => a.date ≤ b.date) →
      ∀ legs, computeTripLegs games cities base = some legs →
        ∃ loopLegs, legsLoop cities base games = some loopLegs ∧
          ((finalCity base games = base → legs = loopLegs) ∧
           (finalCity base games ≠ base → ∃ from_row to_row d,
              (games.map Game.date).getLast? = some d ∧
              cityLookup cities (finalCity base games) = some from_row ∧
              cityLookup cities base = some to_row ∧
              legs = loopLegs ++
                [{ date := d
                   from_city := finalCity base games
                   to_city := base
                   km := haversine from_row.lat from_row.lon
                     to_row.lat to_row.lon }])) := by
  constructor
  · unfold computeTripLegs
    rw [show legsLoop cities base (sortGames []) = some [] from rfl,
      Option.some_bind,
      if_neg (show ¬finalCity base [] ≠ base from fun hh => hh rfl)]
  · intro games hne hs legs h
    rcases computeTripLegs_cases games cities base legs h with ⟨loopLegs, hl, hcase⟩
    rw [sortGames_eq_self hs] at hl
    refine ⟨loopLegs, hl, ?_, ?_⟩
    · intro hfin
      rcases hcase with ⟨_, hleg⟩ | ⟨hfin2, _⟩
      · exact hleg
      · exact absurd hfin hfin2
    · intro hfin
      rcases hcase with ⟨hfin2, _⟩ | ⟨_, from_row, to_row, d, hfr, hto, hd, hleg⟩
      · exact absurd hfin2 hfin
      · refine ⟨from_row, to_row, d, ?_, hfr, hto, hleg⟩
        rw [← hd]
        unfold finalDate
        rw [sortGames_eq_self hs]

/-- Witness for C3: the Denver schedule, whose last venue (Denver) differs
from Dallas, gets a closing leg home dated at the game's own date (day 4). -/
theorem compute_trip_legs_closing_witness :
    (gamesDenver ≠ [] ∧ gamesDenver.Pairwise (fun a b => a.date ≤ b.date) ∧
      computeTripLegs gamesDenver citiesEx "Dallas" = some legsRoundTrip) ∧
    ∃ loopLegs, legsLoop citiesEx "Dallas" gamesDenver = some loopLegs ∧
      ((finalCity "Dallas" gamesDenver = "Dallas" → legsRoundTrip = loopLegs) ∧
       (finalCity "Dallas" gamesDenver ≠ "Dallas" → ∃ from_row to_row d,
          (gamesDenver.map Game.date).getLast? = some d ∧
          cityLookup citiesEx (finalCity "Dallas" gamesDenver) = some from_row ∧
          cityLookup citiesEx "Dallas" = some to_row ∧
          legsRoundTrip = loopLegs ++
            [{ date := d
               from_city := finalCity "Dallas" gamesDenver
               to_city := "Dallas"
               km := haversine from_row.lat from_row.lon
                 to_row.lat to_row.lon }])) :=
  ⟨⟨by decide, by decide, rfl⟩,
    (compute_trip_legs_closing citiesEx "Dallas").2 gamesDenver (by decide)
      (by decide) legsRoundTrip rfl⟩

/-- C4, counterexample: a schedule can reference a city absent from the
coordinate table without aborting — with an empty table and the single game
held at the (unknown) home base, no lookup is ever performed and
`compute_trip_legs` succeeds with zero legs. -/
theorem unknown_city_counterexample :
    cityLookup [] "Dallas" = none ∧
    computeTripLegs [⟨0, "Dallas"⟩] [] "Dallas" = some [] :=
  ⟨rfl, rfl⟩

/-- C4, amended: `compute_trip_legs` aborts with an uncaught lookup error
exactly when a lookup is actually performed on a missing name: when some
game's venue differs from the cursor before it and either endpoint is absent
from the table, or the final venue differs from the home base and either of
those two is absent. -/
theorem compute_trip_legs_unknown_city_fatal (games : List Game)
    (cities : List City) (base : String)
    (hs : games.Pairwise (fun a b => a.date ≤ b.date))
    (h : (∃ i g, games[i]? = some g ∧
            g.venue_city ≠ cursorBefore base games i ∧
            (cityLookup cities (cursorBefore base games i) = none ∨
             cityLookup cities g.venue_city = none)) ∨
         (finalCity base games ≠ base ∧
            (cityLookup cities (finalCity base games) = none ∨
             cityLookup cities base = none))) :
    computeTripLegs games cities base = none := by
  cases hres : computeTripLegs games cities base with
  | none => rfl
  | some legs =>
    exfalso
    rcases computeTripLegs_cases games cities base legs hres with
      ⟨loopLegs, hl, hcase⟩
    rw [sortGames_eq_self hs] at hl
    rcases h with ⟨i, g, hg, hne, hnone⟩ | ⟨hfin, hnone⟩
    · have hsome := legsLoop_lookups cities games base loopLegs hl i g hg hne
      rcases hnone with hn | hn <;> rw [hn] at hsome <;> simp at hsome
    · rcases hcase with ⟨hfin2, _⟩ | ⟨_, from_row, to_row, d, hfr, hto, _, _⟩
      · exact hfin hfin2
      · rcases hnone with hn | hn
        · rw [hn] at hfr; exact absurd hfr (by simp)
        · rw [hn] at hto; exact absurd hto (by simp)

/-- Witness for C4 (amended): one game at Denver with a table that only
knows Dallas — the venue lookup is missing, and the whole run fails. -/
theorem compute_trip_legs_unknown_city_fatal_witness :
    gamesDenver.Pairwise (fun a b => a.date ≤ b.date) ∧
    cityLookup citiesDallasOnly "Denver" = none ∧
    computeTripLegs gamesDenver citiesDallasOnly "Dallas" = none :=
  ⟨by decide, rfl,
    compute_trip_legs_unknown_city_fatal gamesDenver citiesDallasOnly "Dallas"
      (by decide) (Or.inl ⟨0, ⟨4, "Denver"⟩, rfl, by decide, Or.inr rfl⟩)⟩

end Transport
